import Mathlib

/-!
# Verification of the multi-model dispatch-and-stream engine (llm-compare)

Shallow embedding of the dispatch / cache / stream logic of the repository:

* `src/api/compare.js` — the gather-mode serverless handler (concurrency
  limiter, cache, deprecation filter, per-model pipeline);
* `src/server/src/routes/compare.js` and `src/server/src/routes/stream.js`
  — the express near-duplicates (gather route, SSE stream route);
* `src/unnamed/part_000` — the serverless SSE stream handler.

JavaScript strings are modelled as Lean `String` (one `Char` per text unit),
machine timestamps (`Date.now()`) as `Int` milliseconds, `Map` as an
association list with overwrite-on-set, and the external Model Invoker as an
oracle function.  Code with `await` points is split into atomic blocks and
run under an explicit schedule that threads the shared state (`cache`, the
`finished` counter) through the blocks.
-/

namespace LlmCompare

/-! ## JavaScript-ism helpers

`a || b` on strings/numbers treats `""`/`0` as falsy; `x || null` in object
literals yields `null` for falsy `x`.  `undefined` interpolated into a
template literal prints as `"undefined"`. -/

/-- JS `s || d` for strings: `""` is falsy. -/
def jsOrStr (s d : String) : String := if s = "" then d else s

/-- JS `n || d` for numbers: `0` is falsy. -/
def jsOrInt (n d : Int) : Int := if n = 0 then d else n

/-- JS `x || null` where `x : number | undefined`: `0`/absent become `null`. -/
def jsOrNullInt (x : Option Int) : Option Int :=
  match x with
  | some v => if v = 0 then none else some v
  | none => none

/-- JS `x || null` where `x : string | undefined`: `""`/absent become `null`. -/
def jsOrNullStr (x : Option String) : Option String :=
  match x with
  | some v => if v = "" then none else some v
  | none => none

/-- Rendering of `engine` in a template literal: JS `undefined` prints as
`"undefined"`. -/
def engineStr (e : Option String) : String :=
  match e with
  | some s => s
  | none => "undefined"

/-! ## Deprecation filter

From `isDeprecatedModelId` (identical in `src/api/compare.js:38-44`,
`src/server/src/routes/compare.js:13-19`, `src/server/src/routes/stream.js:14-20`):

```js
const raw = process.env.DEPRECATED_MODELS || '';
const set = new Set(raw.split(',').map(s => s.trim()).filter(Boolean));
if (set.has(modelId)) return true;
if (/deprecated|deprecat|end[\x7bs-]?of[\x7bs-]?life|eol|retired|obsolete/i.test(modelId)) return true;
return false;
```
(the character class in the source is whitespace-or-hyphen). -/

/-- The character set of JS regex `\s` (also what `String.prototype.trim`
removes, up to the BOM): ASCII whitespace plus the Unicode space separators,
line separators and the BOM. -/
def isJsWhitespace (c : Char) : Bool :=
  c = ' ' || c = '\t' || c = '\n' || (c.toNat = 11) || (c.toNat = 12) || c = '\r' ||
  c.toNat = 0xa0 || c.toNat = 0x1680 ||
  (0x2000 ≤ c.toNat && c.toNat ≤ 0x200a) ||
  c.toNat = 0x2028 || c.toNat = 0x2029 || c.toNat = 0x202f ||
  c.toNat = 0x205f || c.toNat = 0x3000 || c.toNat = 0xfeff

/-- Accumulator-passing core of `jsSplit`. -/
def jsSplitAux (sep : Char) : List Char → List Char → List String
  | [], acc => [⟨acc.reverse⟩]
  | c :: rest, acc =>
    if c = sep then ⟨acc.reverse⟩ :: jsSplitAux sep rest []
    else jsSplitAux sep rest (c :: acc)

/-- JS `String.prototype.split` with a one-character separator
(`''.split(x) = ['']`; separators at the ends yield empty fields). -/
def jsSplit (sep : Char) (s : String) : List String :=
  jsSplitAux sep s.data []

/-- JS `String.prototype.trim`. -/
def jsTrim (s : String) : String :=
  ⟨(s.data.dropWhile isJsWhitespace).reverse.dropWhile isJsWhitespace |>.reverse⟩

/-- The configured deny-set: `raw.split(',').map(trim).filter(Boolean)`. -/
def denySet (env : String) : List String :=
  ((jsSplit ',' env).map jsTrim).filter (· ≠ "")

/-- ASCII-only lower casing, as used by a case-insensitive non-unicode JS
regex over ASCII pattern letters. -/
def asciiLower (c : Char) : Char :=
  if 'A' ≤ c ∧ c ≤ 'Z' then Char.ofNat (c.toNat + 32) else c

/-- `[\s-]` from the regex: a whitespace character or a hyphen. -/
def isSepChar (c : Char) : Bool := isJsWhitespace c || c = '-'

/-- Suffixes reachable after the optional `[\s-]?`: the input itself, and,
when the head is a separator, the tail. -/
def afterOptSep (cs : List Char) : List (List Char) :=
  match cs with
  | [] => [cs]
  | c :: rest => if isSepChar c then [cs, rest] else [cs]

/-- Does `pat` (a list of already-lowercase pattern chars) occur as a prefix
of `cs`? -/
def prefixMatch : List Char → List Char → Bool
  | [], _ => true
  | _ :: _, [] => false
  | p :: ps, c :: cs => p = c && prefixMatch ps cs

/-- Match of the regex alternative `end[\s-]?of[\s-]?life` at the start of
`cs` (already lowercased). -/
def matchEol (cs : List Char) : Bool :=
  prefixMatch "end".data cs &&
  ((afterOptSep (cs.drop 3)).any fun r1 =>
    prefixMatch "of".data r1 &&
    ((afterOptSep (r1.drop 2)).any fun r2 => prefixMatch "life".data r2))

/-- Match of some alternative of
`/deprecated|deprecat|end[\s-]?of[\s-]?life|eol|retired|obsolete/` at the
start of `cs` (already lowercased). -/
def matchAlt (cs : List Char) : Bool :=
  prefixMatch "deprecated".data cs || prefixMatch "deprecat".data cs ||
  matchEol cs || prefixMatch "eol".data cs ||
  prefixMatch "retired".data cs || prefixMatch "obsolete".data cs

/-- `regex.test(s)`: some suffix position admits a match of some
alternative. -/
def deprecatedRegexTest (s : String) : Bool :=
  ((s.data.map asciiLower).tails).any matchAlt

/-- `isDeprecatedModelId` from the source, with the environment variable
`DEPRECATED_MODELS` passed explicitly. -/
def isDeprecatedModelId (env : String) (modelId : String) : Bool :=
  if (denySet env).contains modelId then true
  else if deprecatedRegexTest modelId then true
  else false

/-! ## Cache key: `provider:engine:base64(utf8(query))`

`cacheKey` in the source is
`` `${provider}:${engine}:${Buffer.from(query).toString('base64')}` ``. -/

/-- UTF-8 encoding of one scalar value. -/
def utf8Char (c : Char) : List Nat :=
  let n := c.toNat
  if n < 0x80 then [n]
  else if n < 0x800 then [0xc0 + n / 64, 0x80 + n % 64]
  else if n < 0x10000 then [0xe0 + n / 4096, 0x80 + n / 64 % 64, 0x80 + n % 64]
  else [0xf0 + n / 262144, 0x80 + n / 4096 % 64, 0x80 + n / 64 % 64, 0x80 + n % 64]

/-- UTF-8 bytes of a string (`Buffer.from(query)`). -/
def utf8Bytes (s : String) : List Nat :=
  (s.data.map utf8Char).flatten

/-- The standard base64 alphabet. -/
def base64Digit (n : Nat) : Char :=
  if n < 26 then Char.ofNat ('A'.toNat + n)
  else if n < 52 then Char.ofNat ('a'.toNat + (n - 26))
  else if n < 62 then Char.ofNat ('0'.toNat + (n - 52))
  else if n = 62 then '+'
  else '/'

/-- Base64 encoding with padding (`Buffer.toString('base64')`). -/
def base64Encode : List Nat → List Char
  | [] => []
  | [b1] =>
    [base64Digit (b1 / 4), base64Digit (b1 % 4 * 16), '=', '=']
  | [b1, b2] =>
    [base64Digit (b1 / 4), base64Digit (b1 % 4 * 16 + b2 / 16),
     base64Digit (b2 % 16 * 4), '=']
  | b1 :: b2 :: b3 :: rest =>
    base64Digit (b1 / 4) :: base64Digit (b1 % 4 * 16 + b2 / 16) ::
    base64Digit (b2 % 16 * 4 + b3 / 64) :: base64Digit (b3 % 64) ::
    base64Encode rest

/-- `cacheKey(provider, engine, query)` from the source.  `engine` is the
possibly-`undefined` second segment of the model id. -/
def cacheKey (provider : String) (engine : Option String) (query : String) : String :=
  provider ++ ":" ++ engineStr engine ++ ":" ++ ⟨base64Encode (utf8Bytes query)⟩

/-! ## Data model: results, cache, invoker -/

/-- `metrics: { timeMs, length }`. -/
structure Metrics where
  timeMs : Int
  length : Nat
  deriving Repr, DecidableEq

/-- The successful per-model value built by the pipeline and stored in the
cache: `{ modelId, modelDisplay, text, metrics, raw }`. -/
structure ModelResult where
  modelId : String
  modelDisplay : String
  text : String
  metrics : Metrics
  raw : Option String
  deriving Repr, DecidableEq

/-- A cache slot: `{ ts: Date.now(), val: out }`. -/
structure CacheEntry where
  ts : Int
  val : ModelResult
  deriving Repr, DecidableEq

/-- The in-memory cache `Map`, as an association list in insertion order. -/
abbrev Cache := List (String × CacheEntry)

/-- `cache.get(key)`. -/
def cacheGet (c : Cache) (k : String) : Option CacheEntry :=
  (c.find? (·.1 = k)).map (·.2)

/-- `cache.set(key, v)`: overwrite in place, or append. -/
def cacheSet (c : Cache) (k : String) (v : CacheEntry) : Cache :=
  match c with
  | [] => [(k, v)]
  | (k', v') :: rest => if k' = k then (k, v) :: rest else (k', v') :: cacheSet rest k v

/-- `CACHE_TTL_MS = 1000 * 60 * 30` (milliseconds). -/
def CACHE_TTL_MS : Int := 1000 * 60 * 30

/-- What one call of the external Model Invoker (`callOpenAI` /
`callAnthropic`) can come back with: a normalized success
`{text, timeMs, raw}`, a normalized failure `{error:true, message, status?,
body?}`, or a thrown exception (a rejected promise). -/
inductive InvokeResult where
  | ok (text : String) (timeMs : Int) (raw : Option String)
  | err (message : String) (status : Option Int) (body : Option String)
  | thrown (message : String)
  deriving Repr, DecidableEq

/-- The invoker oracle.  The engine argument is `Option String` because the
server routes forward a possibly-`undefined` engine verbatim. -/
abbrev Invoker := String → Option String → String → InvokeResult

/-- A record of one call made to the Model Invoker. -/
abbrev InvokeCall := String × Option String × String

/-- `callProvider` from `src/api/compare.js:46-53` (same in
`src/unnamed/part_000:46-53`): throws on a missing/empty engine, dispatches
on the provider, returns a normalized error for unsupported providers.
Also returns the list of invoker calls it performed. -/
def callProviderApi (inv : Invoker) (provider : String) (engine : Option String)
    (query : String) : InvokeResult × List InvokeCall :=
  if engine = none ∨ engine = some "" then
    (.thrown "Invalid model ID format. Expected format: provider:engine", [])
  else if provider = "openai" then (inv provider engine query, [(provider, engine, query)])
  else if provider = "anthropic" then (inv provider engine query, [(provider, engine, query)])
  else (.err ("unsupported provider: " ++ provider) none none, [])

/-- `callProvider` from `src/server/src/routes/compare.js:21-25` and
`stream.js:22-26`: no format check at all. -/
def callProviderServer (inv : Invoker) (provider : String) (engine : Option String)
    (query : String) : InvokeResult × List InvokeCall :=
  if provider = "openai" then (inv provider engine query, [(provider, engine, query)])
  else if provider = "anthropic" then (inv provider engine query, [(provider, engine, query)])
  else (.err ("unsupported provider: " ++ provider) none none, [])

/-! ## Gather mode (`src/api/compare.js` handler) -/

/-- One element of the gather-mode `responses` array.  JS object fields that
a given branch does not set are `none`; `null`-valued fields are also
`none`. -/
structure GatherOutcome where
  modelId : String
  modelDisplay : Option String := none
  text : Option String := none
  metrics : Option Metrics := none
  raw : Option String := none
  error : Option Bool := none
  message : Option String := none
  status : Option Int := none
  body : Option String := none
  cached : Option Bool := none
  deriving Repr, DecidableEq

/-- `{ ...cached.val, cached: true }`: the spread of a stored `ModelResult`
with the `cached` flag added. -/
def spreadCached (v : ModelResult) : GatherOutcome :=
  { modelId := v.modelId, modelDisplay := some v.modelDisplay, text := some v.text,
    metrics := some v.metrics, raw := v.raw, cached := some true }

/-- The success object `out` built by the api pipeline
(`src/api/compare.js:92-101`, identically `src/unnamed/part_000:149-158`):
`text: result.text || ''`, `timeMs: result.timeMs || 0`,
`length: (result.text || '').length`, `raw: result.raw || null`. -/
def mkApiOut (id provider : String) (engine : Option String) (text : String)
    (tm : Int) (raw : Option String) : ModelResult :=
  { modelId := id, modelDisplay := provider ++ ":" ++ engineStr engine,
    text := jsOrStr text "",
    metrics := { timeMs := jsOrInt tm 0, length := (jsOrStr text "").length },
    raw := jsOrNullStr raw }

/-- The success object `out` built by the express gather route
(`src/server/src/routes/compare.js:51`): fields taken verbatim
(`timeMs: result.timeMs ?? 0` is the identity on our total `Int`). -/
def mkServerOut (id provider : String) (engine : Option String) (text : String)
    (tm : Int) (raw : Option String) : ModelResult :=
  { modelId := id, modelDisplay := provider ++ ":" ++ engineStr engine,
    text := text, metrics := { timeMs := tm, length := text.length }, raw := raw }

/-- Result of one per-model task: the outcome pushed into `responses`, the
cache it left behind, and the invoker calls it made. -/
structure GatherStep where
  outcome : GatherOutcome
  cache : Cache
  calls : List InvokeCall
  deriving Repr, DecidableEq

/-- The non-cached tail of the api gather task, `src/api/compare.js:78-114`:
`try { callProvider ... } catch`, with error normalization and cache
write-back on success. -/
def processGatherFresh (inv : Invoker) (query : String) (c : Cache) (now : Int)
    (id provider : String) (engine : Option String) (key : String) : GatherStep :=
  let (result, calls) := callProviderApi inv provider engine query
  match result with
  | .thrown m =>
    { outcome := { modelId := id, modelDisplay := some id, error := some true,
                   message := some (jsOrStr m ("Error: " ++ m)) },
      cache := c, calls := calls }
  | .err m st bd =>
    { outcome := { modelId := id, modelDisplay := some (provider ++ ":" ++ engineStr engine),
                   error := some true, message := some (jsOrStr m "error"),
                   status := jsOrNullInt st, body := jsOrNullStr bd },
      cache := c, calls := calls }
  | .ok text tm raw =>
    let out := mkApiOut id provider engine text tm raw
    { outcome := { modelId := id, modelDisplay := some out.modelDisplay,
                   text := some out.text, metrics := some out.metrics, raw := out.raw },
      cache := cacheSet c key { ts := now, val := out }, calls := calls }

/-- The per-model task of the gather handler, `src/api/compare.js:65-115`:
deprecation check, split on `':'` (destructuring takes the first two
segments), cache lookup with TTL, provider call, error normalization,
cache write-back on success.  `now` is `Date.now()`. -/
def processGatherModel (env : String) (inv : Invoker) (query : String)
    (c : Cache) (now : Int) (id : String) : GatherStep :=
  if isDeprecatedModelId env id then
    { outcome := { modelId := id, error := some true,
                   message := some "model deprecated or marked deprecated" },
      cache := c, calls := [] }
  else
    let parts := jsSplit ':' id
    let provider := parts.headD ""
    let engine : Option String := parts[1]?
    let key := cacheKey provider engine query
    match cacheGet c key with
    | some entry =>
      if now - entry.ts < CACHE_TTL_MS then
        { outcome := spreadCached entry.val, cache := c, calls := [] }
      else
        processGatherFresh inv query c now id provider engine key
    | none => processGatherFresh inv query c now id provider engine key

/-- Sequential threading of the per-model tasks over the selected ids (one
admissible schedule of the limiter; each task reads the cache its
predecessors left). -/
def gatherGo (env : String) (inv : Invoker) (query : String) (now : Int) :
    List String → Cache → List GatherOutcome × Cache
  | [], c => ([], c)
  | id :: rest, c =>
    let s := processGatherModel env inv query c now id
    let (os, c') := gatherGo env inv query now rest s.cache
    (s.outcome :: os, c')

/-- The gather handler on a valid request (`src/api/compare.js:55-119`,
after input validation): truncate to the first 3 ids, run the per-model
tasks, return `responses` and the final cache. -/
def gatherHandler (env : String) (inv : Invoker) (query : String) (c : Cache)
    (now : Int) (modelIds : List String) : List GatherOutcome × Cache :=
  gatherGo env inv query now (modelIds.take 3) c

/-- The cache state each per-model task of `gatherGo` actually reads: the
`i`-th element is the cache left behind by the tasks for the first `i`
selected ids (starting from the request's initial cache). -/
def gatherCaches (env : String) (inv : Invoker) (query : String) (now : Int) :
    List String → Cache → List Cache
  | [], _ => []
  | id :: rest, c =>
    c :: gatherCaches env inv query now rest (processGatherModel env inv query c now id).cache

/-- The non-cached tail of the express gather route task,
`src/server/src/routes/compare.js:46-53`: same shape as the api version but
no engine format check, no `|| null` defaulting on `status`/`body`, no
`|| ''` on `text`, and a provider exception propagates (no per-model
try/catch): a thrown invocation is surfaced as a rejected task, modelled
here as an error-shaped marker outcome. -/
def processServerGatherFresh (inv : Invoker) (query : String) (c : Cache) (now : Int)
    (id provider : String) (engine : Option String) (key : String) : GatherStep :=
  let (result, calls) := callProviderServer inv provider engine query
  match result with
  | .thrown m =>
    -- no try/catch in this route's task: the rejection escapes to
    -- `Promise.all`; we record it as an error-shaped outcome marker
    { outcome := { modelId := id, error := some true, message := some m },
      cache := c, calls := calls }
  | .err m st bd =>
    { outcome := { modelId := id, modelDisplay := some (provider ++ ":" ++ engineStr engine),
                   error := some true, message := some m, status := st, body := bd },
      cache := c, calls := calls }
  | .ok text tm raw =>
    let out := mkServerOut id provider engine text tm raw
    { outcome := { modelId := id, modelDisplay := some out.modelDisplay,
                   text := some out.text, metrics := some out.metrics, raw := out.raw },
      cache := cacheSet c key { ts := now, val := out }, calls := calls }

/-- The per-model task of the express gather route,
`src/server/src/routes/compare.js:36-54`: like `processGatherModel` but
with the server's `callProvider` (no engine format check) and the server's
field handling (see `processServerGatherFresh`). -/
def processServerGatherModel (env : String) (inv : Invoker) (query : String)
    (c : Cache) (now : Int) (id : String) : GatherStep :=
  if isDeprecatedModelId env id then
    { outcome := { modelId := id, error := some true,
                   message := some "model deprecated or marked deprecated" },
      cache := c, calls := [] }
  else
    let parts := jsSplit ':' id
    let provider := parts.headD ""
    let engine : Option String := parts[1]?
    let key := cacheKey provider engine query
    match cacheGet c key with
    | some entry =>
      if now - entry.ts < CACHE_TTL_MS then
        { outcome := spreadCached entry.val, cache := c, calls := [] }
      else
        processServerGatherFresh inv query c now id provider engine key
    | none => processServerGatherFresh inv query c now id provider engine key

/-! ## Stream mode

Events of the SSE protocol.  `done` carries its `ok` flag; the other
events carry the payload fields the source writes. -/

/-- One SSE event block. -/
inductive StreamEvent where
  | modelSkipped (modelId reason : String)
  | modelStart (modelId modelDisplay : String) (cached : Bool)
  | modelChunk (modelId text : String)
  | modelEnd (modelId : String) (metrics : Metrics)
  | modelError (modelId message : String) (status : Option Int) (body : Option String)
  | done (ok : Bool)
  deriving Repr, DecidableEq

/-- The literal `event:` name each event is written with. -/
def StreamEvent.name : StreamEvent → String
  | .modelSkipped .. => "model-skipped"
  | .modelStart .. => "model-start"
  | .modelChunk .. => "model-chunk"
  | .modelEnd .. => "model-end"
  | .modelError .. => "model-error"
  | .done _ => "done"

/-- The chunking loop
`for (let i = 0; i < text.length; i += 200) push(text.slice(i, i + 200))`:
`slice(i, i + 200)` is `(drop i).take 200`, and stepping `i` by 200 yields
`take 200` followed by the chunks of `drop 200`. -/
def chunksC (l : List Char) : List (List Char) :=
  if _h : l = [] then [] else l.take 200 :: chunksC (l.drop 200)
termination_by l.length
decreasing_by
  simp only [List.length_drop]
  have : 0 < l.length := List.length_pos.mpr _h
  omega

/-- String-level chunking, the unit being one `Char`. -/
def chunkTexts (s : String) : List String :=
  (chunksC s.data).map (⟨·⟩)

/-- The `model-chunk` events a given model id emits for a given text. -/
def chunkEvents (id : String) (text : String) : List StreamEvent :=
  (chunkTexts text).map (StreamEvent.modelChunk id)

/-- One atomic block of a stream task (code between suspension points):
the events it writes, followed by `incChecks` repetitions of
`finished++; if (finished === selected.length) sendEvent('done', {ok:true})`. -/
structure Block where
  evs : List StreamEvent
  incChecks : Nat
  deriving Repr, DecidableEq

/-- Result of one per-model stream task: its blocks (one block when the
task is synchronous, two when it suspends at `await callProvider`), the
cache it left, and the invoker calls it made. -/
structure StreamStep where
  blocks : List Block
  cache : Cache
  calls : List InvokeCall
  deriving Repr, DecidableEq

/-- The non-cached tail of the `part_000` stream task
(`src/unnamed/part_000:130-189`): emit `model-start`, await the provider,
then error / chunked success / caught exception, then the single
`finished++`/done check. -/
def processStreamFresh (inv : Invoker) (query : String) (c : Cache) (now : Int)
    (id provider : String) (engine : Option String) (key : String) : StreamStep :=
  let pre : Block := ⟨[.modelStart id (provider ++ ":" ++ engineStr engine) false], 0⟩
  let (result, calls) := callProviderApi inv provider engine query
  match result with
  | .thrown m =>
    { blocks := [pre, ⟨[.modelError id (jsOrStr m ("Error: " ++ m)) none none], 1⟩],
      cache := c, calls := calls }
  | .err m st bd =>
    { blocks := [pre, ⟨[.modelError id m st bd], 1⟩], cache := c, calls := calls }
  | .ok text tm raw =>
    let out := mkApiOut id provider engine text tm raw
    { blocks := [pre, ⟨chunkEvents id out.text ++ [.modelEnd id out.metrics], 1⟩],
      cache := cacheSet c key { ts := now, val := out }, calls := calls }

/-- The per-model task of the serverless stream handler
(`processModel`, `src/unnamed/part_000:83-190`).  Every branch — skipped,
cache hit, invoker error, success, thrown — performs exactly one
`finished++`/done check, in the skip and cache branches inline and in the
fresh branch after the try/catch. -/
def processStreamModel (env : String) (inv : Invoker) (query : String)
    (c : Cache) (now : Int) (id : String) : StreamStep :=
  if isDeprecatedModelId env id then
    { blocks := [⟨[.modelSkipped id "deprecated"], 1⟩], cache := c, calls := [] }
  else
    let parts := jsSplit ':' id
    let provider := parts.headD ""
    let engine : Option String := parts[1]?
    let key := cacheKey provider engine query
    match cacheGet c key with
    | some entry =>
      if now - entry.ts < CACHE_TTL_MS then
        { blocks := [⟨.modelStart id entry.val.modelDisplay true ::
                      chunkEvents id (jsOrStr entry.val.text "") ++
                      [.modelEnd id entry.val.metrics], 1⟩],
          cache := c, calls := [] }
      else
        processStreamFresh inv query c now id provider engine key
    | none => processStreamFresh inv query c now id provider engine key

/-- The non-cached tail of the express stream task
(`src/server/src/routes/stream.js:76-106`): `model-start`, await, then
invoker error (inline `finished++` + `return`, plus the `finally`
increment: 2 checks), or chunked success / caught exception (the `finally`
increment only: 1 check). -/
def processServerStreamFresh (inv : Invoker) (query : String) (c : Cache) (now : Int)
    (id provider : String) (engine : Option String) (key : String) : StreamStep :=
  let pre : Block := ⟨[.modelStart id (provider ++ ":" ++ engineStr engine) false], 0⟩
  let (result, calls) := callProviderServer inv provider engine query
  match result with
  | .thrown m =>
    { blocks := [pre, ⟨[.modelError id (jsOrStr m ("Error: " ++ m)) none none], 1⟩],
      cache := c, calls := calls }
  | .err m st bd =>
    { blocks := [pre, ⟨[.modelError id m st bd], 2⟩], cache := c, calls := calls }
  | .ok text tm raw =>
    let out := mkApiOut id provider engine text tm raw
    { blocks := [pre, ⟨chunkEvents id out.text ++ [.modelEnd id out.metrics], 1⟩],
      cache := cacheSet c key { ts := now, val := out }, calls := calls }

/-- The per-model task of the express stream route
(`src/server/src/routes/stream.js:51-107`).  Structure as in `part_000`,
except: the invoker-error branch performs its own `finished++`/done check
and then `return`s — but `return` inside `try` still runs the `finally`
block, which performs a second `finished++`/done check.  That branch hence
carries `incChecks = 2`. -/
def processServerStreamModel (env : String) (inv : Invoker) (query : String)
    (c : Cache) (now : Int) (id : String) : StreamStep :=
  if isDeprecatedModelId env id then
    { blocks := [⟨[.modelSkipped id "deprecated"], 1⟩], cache := c, calls := [] }
  else
    let parts := jsSplit ':' id
    let provider := parts.headD ""
    let engine : Option String := parts[1]?
    let key := cacheKey provider engine query
    match cacheGet c key with
    | some entry =>
      if now - entry.ts < CACHE_TTL_MS then
        { blocks := [⟨.modelStart id entry.val.modelDisplay true ::
                      chunkEvents id (jsOrStr entry.val.text "") ++
                      [.modelEnd id entry.val.metrics], 1⟩],
          cache := c, calls := [] }
      else
        processServerStreamFresh inv query c now id provider engine key
    | none => processServerStreamFresh inv query c now id provider engine key

/-- `incChecks` repetitions of
`finished++; if (finished === total) sendEvent('done', {ok:true})`,
starting from counter value `f`: the `done` events emitted. -/
def runIncChecks (total : Nat) : Nat → Nat → List StreamEvent
  | 0, _ => []
  | k + 1, f =>
    (if f + 1 = total then [StreamEvent.done true] else []) ++
    runIncChecks total k (f + 1)

/-- Run one block against the shared `finished` counter. -/
def runBlock (total : Nat) (b : Block) (f : Nat) : List StreamEvent × Nat :=
  (b.evs ++ runIncChecks total b.incChecks f, f + b.incChecks)

/-- Run a schedule (a sequence of blocks of possibly different tasks, in
the order the event loop executes them), threading `finished`. -/
def runSchedule (total : Nat) : List Block → Nat → List StreamEvent × Nat
  | [], f => ([], f)
  | b :: rest, f =>
    let (evs, f') := runBlock total b f
    let (evs', f'') := runSchedule total rest f'
    (evs ++ evs', f'')

/-- All events of one task, in order, ignoring the counter (the per-model
event sequence of the protocol, without interleaving). -/
def taskEvents (s : StreamStep) : List StreamEvent :=
  (s.blocks.map Block.evs).flatten

/-- Total number of `finished++` updates a task performs. -/
def taskIncs (s : StreamStep) : Nat :=
  (s.blocks.map Block.incChecks).sum

/-! ## Concurrency limiter (`createConcurrencyLimiter`, `src/api/compare.js:4-28`)

```js
const next = () => {
  if (running >= concurrency || !queue.length) return;
  running++;
  const { fn, resolve, reject } = queue.shift();
  Promise.resolve().then(fn).then(resolve).catch(reject)
    .finally(() => { running--; next(); });
};
return (fn) => new Promise((resolve, reject) => { queue.push({fn, ...}); next(); });
```

Tasks are identified by numbers.  `started` records, in order, the tasks
`next()` has handed to the event loop; a `finish` event is one task's
`finally` callback running (`ok` says whether the task's promise resolved
or rejected — the source's `finally` ignores this). -/

/-- Limiter state: the pending FIFO queue, the `running` counter, and the
history of started tasks (in start order). -/
structure LimiterState where
  queue : List Nat
  running : Nat
  started : List Nat
  deriving Repr, DecidableEq

/-- The initial limiter state. -/
def limInit : LimiterState := ⟨[], 0, []⟩

/-- `next()`: start the head of the queue unless the ceiling is reached or
the queue is empty. -/
def limNext (limit : Nat) (s : LimiterState) : LimiterState :=
  if s.running ≥ limit then s
  else
    match s.queue with
    | [] => s
    | t :: rest => { queue := rest, running := s.running + 1, started := s.started ++ [t] }

/-- An external stimulus: a new task submission, or the completion
(resolution or rejection) of one running task. -/
inductive LimEvent where
  | submit (id : Nat)
  | finish (ok : Bool)
  deriving Repr, DecidableEq

/-- One step: `submit` pushes onto the queue and calls `next()`; `finish`
is a running task's `finally` — decrement `running` and call `next()`,
regardless of `ok`. -/
def limStep (limit : Nat) (s : LimiterState) : LimEvent → LimiterState
  | .submit id => limNext limit { s with queue := s.queue ++ [id] }
  | .finish _ => limNext limit { s with running := s.running - 1 }

/-- Run a trace of events. -/
def limRun (limit : Nat) (s : LimiterState) : List LimEvent → LimiterState
  | [] => s
  | e :: rest => limRun limit (limStep limit s e) rest

/-- A trace is valid from `s` when every `finish` happens while some task
is running. -/
def limValid (limit : Nat) (s : LimiterState) : List LimEvent → Bool
  | [] => true
  | .submit id :: rest => limValid limit (limStep limit s (.submit id)) rest
  | .finish ok :: rest =>
    decide (0 < s.running) && limValid limit (limStep limit s (.finish ok)) rest

/-- The submissions of a trace, in order. -/
def limSubmits : List LimEvent → List Nat
  | [] => []
  | .submit id :: rest => id :: limSubmits rest
  | .finish _ :: rest => limSubmits rest

/-! ## Helper notions used by several statements -/

/-- The provider segment of a model id (`id.split(':')[0]`). -/
def providerOf (id : String) : String := (jsSplit ':' id).headD ""

/-- The engine segment of a model id (`id.split(':')[1]`, possibly
`undefined`). -/
def engineOf (id : String) : Option String := (jsSplit ':' id)[1]?

/-- The cache key a model id together with a query maps to. -/
def keyOfId (id q : String) : String := cacheKey (providerOf id) (engineOf id) q

/-! ## Helper lemmas: cache map -/

theorem cacheGet_set_self (c : Cache) (k : String) (v : CacheEntry) :
    cacheGet (cacheSet c k v) k = some v := by
  induction c with
  | nil => simp [cacheSet, cacheGet, List.find?]
  | cons hd tl ih =>
    by_cases h : hd.1 = k
    · simp [cacheSet, cacheGet, h, List.find?]
    · simpa [cacheSet, cacheGet, h, List.find?] using ih

theorem cacheGet_set_ne (c : Cache) (k k' : String) (v : CacheEntry) (h : k' ≠ k) :
    cacheGet (cacheSet c k v) k' = cacheGet c k' := by
  induction c with
  | nil => simp [cacheSet, cacheGet, List.find?, Ne.symm h]
  | cons hd tl ih =>
    by_cases hh : hd.1 = k
    · simp [cacheSet, cacheGet, hh, List.find?, Ne.symm h]
    · by_cases hk' : hd.1 = k'
      · simp [cacheSet, cacheGet, hh, hk', h, List.find?]
      · simpa [cacheSet, cacheGet, hh, hk', List.find?] using ih

/-! ## Helper lemmas: chunking -/

theorem chunksC_nil : chunksC [] = [] := by
  rw [chunksC]
  simp

theorem chunksC_cons (l : List Char) (h : l ≠ []) :
    chunksC l = l.take 200 :: chunksC (l.drop 200) := by
  rw [chunksC]
  simp [h]

theorem chunksC_flatten (l : List Char) : (chunksC l).flatten = l := by
  by_cases h : l = []
  · simp [h, chunksC_nil]
  · rw [chunksC_cons l h, List.flatten_cons, chunksC_flatten (l.drop 200),
      List.take_append_drop]
termination_by l.length
decreasing_by
  simp only [List.length_drop]
  have : 0 < l.length := List.length_pos.mpr h
  omega

theorem chunksC_mem_length (l : List Char) (t : List Char) (ht : t ∈ chunksC l) :
    1 ≤ t.length ∧ t.length ≤ 200 := by
  by_cases h : l = []
  · simp [h, chunksC_nil] at ht
  · rw [chunksC_cons l h] at ht
    have hpos : 0 < l.length := List.length_pos.mpr h
    rcases List.mem_cons.mp ht with rfl | hmem
    · constructor
      · simp only [List.length_take]
        omega
      · simp only [List.length_take]
        omega
    · exact chunksC_mem_length (l.drop 200) t hmem
termination_by l.length
decreasing_by
  simp only [List.length_drop]
  omega

theorem chunksC_dropLast_length (l : List Char) (t : List Char)
    (ht : t ∈ (chunksC l).dropLast) : t.length = 200 := by
  by_cases h : l = []
  · simp [h, chunksC_nil] at ht
  · rw [chunksC_cons l h] at ht
    have hpos : 0 < l.length := List.length_pos.mpr h
    by_cases hd : l.drop 200 = []
    · simp [hd, chunksC_nil] at ht
    · have hlen : 200 < l.length := by
        by_contra hle
        exact hd (List.drop_eq_nil_of_le (by omega))
      rw [List.dropLast_cons_of_ne_nil (by simp [chunksC_cons _ hd])] at ht
      rcases List.mem_cons.mp ht with rfl | hmem
      · simp only [List.length_take]
        omega
      · exact chunksC_dropLast_length (l.drop 200) t hmem
termination_by l.length
decreasing_by
  simp only [List.length_drop]
  omega

theorem chunksC_eq_nil_iff (l : List Char) : chunksC l = [] ↔ l = [] := by
  constructor
  · intro h
    by_contra hne
    rw [chunksC_cons l hne] at h
    exact List.cons_ne_nil _ _ h
  · intro h
    simp [h, chunksC_nil]

theorem join_map_mk (ls : List (List Char)) :
    String.join (ls.map (⟨·⟩)) = ⟨ls.flatten⟩ := by
  suffices h : ∀ a : List Char,
      List.foldl (· ++ ·) (String.mk a) (ls.map (⟨·⟩)) = ⟨a ++ ls.flatten⟩ by
    simpa [String.join] using h []
  induction ls with
  | nil => intro a; simp
  | cons x xs ih =>
    intro a
    have : (String.mk a ++ String.mk x) = String.mk (a ++ x) := rfl
    simp only [List.map_cons, List.foldl_cons, this, ih, List.flatten_cons,
      List.append_assoc]

/-- Concatenating the chunks of a text reproduces the text. -/
theorem chunkTexts_join (s : String) : String.join (chunkTexts s) = s := by
  rw [chunkTexts, join_map_mk, chunksC_flatten]

/-- Every chunk except possibly the last has exactly 200 units. -/
theorem chunkTexts_dropLast_length (s : String) (t : String)
    (ht : t ∈ (chunkTexts s).dropLast) : t.length = 200 := by
  rw [chunkTexts, ← List.map_dropLast] at ht
  rcases List.mem_map.mp ht with ⟨u, hu, rfl⟩
  simpa [String.length] using chunksC_dropLast_length s.data u hu

/-- Every chunk has between 1 and 200 units. -/
theorem chunkTexts_mem_length (s : String) (t : String) (ht : t ∈ chunkTexts s) :
    1 ≤ t.length ∧ t.length ≤ 200 := by
  rw [chunkTexts] at ht
  rcases List.mem_map.mp ht with ⟨u, hu, rfl⟩
  simpa [String.length] using chunksC_mem_length s.data u hu

/-- The empty text yields no chunk events. -/
theorem chunkTexts_nil_iff (s : String) : chunkTexts s = [] ↔ s = "" := by
  rw [chunkTexts]
  constructor
  · intro h
    have := (chunksC_eq_nil_iff s.data).mp (List.map_eq_nil_iff.mp h)
    cases s
    simp_all
  · intro h
    simp [h, show ("" : String).data = [] from rfl, chunksC_nil]

/-! ## Helper lemmas: the gather pipeline -/

theorem processGatherFresh_modelId (inv : Invoker) (q : String) (c : Cache) (now : Int)
    (id provider : String) (engine : Option String) (key : String) :
    (processGatherFresh inv q c now id provider engine key).outcome.modelId = id := by
  unfold processGatherFresh
  split
  split <;> rfl

theorem processGatherModel_outcome_src (env : String) (inv : Invoker) (q : String)
    (c : Cache) (now : Int) (id : String) :
    (processGatherModel env inv q c now id).outcome.modelId = id ∨
      ∃ e : CacheEntry, cacheGet c (keyOfId id q) = some e ∧
        now - e.ts < CACHE_TTL_MS ∧
        (processGatherModel env inv q c now id).outcome = spreadCached e.val := by
  unfold processGatherModel
  split
  · left
    rfl
  · dsimp only
    split
    · rename_i entry heq
      split
      · rename_i hts
        right
        exact ⟨entry, heq, hts, rfl⟩
      · left
        exact processGatherFresh_modelId ..
    · left
      exact processGatherFresh_modelId ..

theorem gatherGo_length (env : String) (inv : Invoker) (q : String) (now : Int)
    (l : List String) (c : Cache) :
    (gatherGo env inv q now l c).1.length = l.length := by
  induction l generalizing c with
  | nil => rfl
  | cons id rest ih => simp [gatherGo, ih]

theorem gatherGo_get_cache (env : String) (inv : Invoker) (q : String) (now : Int)
    (l : List String) (c : Cache) (i : Nat) (o : GatherOutcome) (id : String)
    (ho : (gatherGo env inv q now l c).1[i]? = some o) (hid : l[i]? = some id) :
    ∃ ci : Cache, (gatherCaches env inv q now l c)[i]? = some ci ∧
      o = (processGatherModel env inv q ci now id).outcome := by
  induction l generalizing c i with
  | nil => simp at hid
  | cons hd rest ih =>
    cases i with
    | zero =>
      simp only [List.getElem?_cons_zero, Option.some.injEq] at hid
      subst hid
      simp only [gatherGo, List.getElem?_cons_zero, Option.some.injEq] at ho
      exact ⟨c, by simp [gatherCaches], ho.symm⟩
    | succ n =>
      simp only [List.getElem?_cons_succ] at hid
      simp only [gatherGo, List.getElem?_cons_succ] at ho
      simpa only [gatherCaches, List.getElem?_cons_succ] using ih _ _ ho hid

/-! ## Claim C1 -/

/-- **C1** (code bug, `src/server/src/routes/stream.js`).  The claim says the
completion counter is updated exactly once per selected model regardless of
branch, and `done {ok:true}` is emitted exactly once, only after every
selected model has produced its terminal event.  The express stream route
violates this: its invoker-error branch runs `finished++` and `return`s,
and the `finally` block then runs `finished++` again, so that branch counts
twice (`taskIncs = 2`, versus `1` for every branch of the `part_000`
handler).  Concretely, streaming `{query:"hi",
modelIds:["bogus:a","nope:b"]}` (two unsupported providers) under the
schedule in which the first model's provider call settles first emits
`done {ok:true}` immediately after the first model's `model-error` —
before the second model's terminal event — and the counter ends at 4 for 2
models. -/
theorem serverStream_doubleIncrement_premature_done :
    runSchedule 2
      ((processServerStreamModel "" (fun _ _ _ => .ok "hello" 5 none) "hi" [] 0 "bogus:a").blocks.take 1 ++
       (processServerStreamModel "" (fun _ _ _ => .ok "hello" 5 none) "hi" [] 0 "nope:b").blocks.take 1 ++
       (processServerStreamModel "" (fun _ _ _ => .ok "hello" 5 none) "hi" [] 0 "bogus:a").blocks.drop 1 ++
       (processServerStreamModel "" (fun _ _ _ => .ok "hello" 5 none) "hi" [] 0 "nope:b").blocks.drop 1) 0
      = ([.modelStart "bogus:a" "bogus:a" false,
          .modelStart "nope:b" "nope:b" false,
          .modelError "bogus:a" "unsupported provider: bogus" none none,
          .done true,
          .modelError "nope:b" "unsupported provider: nope" none none], 4) ∧
    taskIncs (processServerStreamModel "" (fun _ _ _ => .ok "hello" 5 none) "hi" [] 0 "bogus:a") = 2 ∧
    taskIncs (processStreamModel "" (fun _ _ _ => .ok "hello" 5 none) "hi" [] 0 "bogus:a") = 1 := by
  decide

/-! ## Claim C2 -/

/-- **C2** counterexample.  A gather-mode cache hit returns
`{ ...cached.val, cached: true }`, whose `modelId` is the identifier of the
request that *stored* the entry.  `"openai:gpt:x"` and `"openai:gpt"` both
map to the cache key `openai:gpt:<base64 "hi">` (the destructuring
`[provider, engine] = id.split(':')` drops the third segment), so after a
first valid request for `"openai:gpt:x"`, a second valid request for
`"openai:gpt"` gets one outcome whose `modelId` `"openai:gpt:x"` is not
among the request's identifiers — refuting "each outcome's modelId is one
of the truncated request's identifiers". -/
theorem gather_cacheHit_foreign_modelId_cex :
    (gatherHandler "" (fun _ _ _ => .ok "hello" 5 none) "hi"
        (gatherHandler "" (fun _ _ _ => .ok "hello" 5 none) "hi" [] 1000 ["openai:gpt:x"]).2
        2000 ["openai:gpt"]).1.map GatherOutcome.modelId = ["openai:gpt:x"] ∧
    "openai:gpt:x" ∉ (["openai:gpt"] : List String) := by
  decide

/-- **C2** (amended).  For every valid request the gather-mode response has
exactly `min(3, modelIds.length)` outcomes, exactly one per position of the
truncated identifier list.  The outcome at position `i` is exactly the
per-model task's outcome on the cache state that task actually read — the
`i`-th element of `gatherCaches`, the fold of the preceding tasks' writes
over the request's initial cache.  Its `modelId` equals `selected[i]`,
except when that very cache state holds a live (within-TTL) entry under
`selected[i]`'s key: then the outcome is exactly that entry's stored value
spread with `cached:true`, so it carries the *stored* `modelId`, which can
differ from `selected[i]` when distinct identifiers share a cache key. -/
theorem gather_response_shape (env : String) (inv : Invoker) (q : String) (c : Cache)
    (now : Int) (modelIds : List String) (_hq : q ≠ "") (_hids : modelIds ≠ []) :
    (gatherHandler env inv q c now modelIds).1.length = min 3 modelIds.length ∧
    ∀ (i : Nat) (o : GatherOutcome) (id : String),
      (gatherHandler env inv q c now modelIds).1[i]? = some o →
      (modelIds.take 3)[i]? = some id →
      ∃ ci : Cache, (gatherCaches env inv q now (modelIds.take 3) c)[i]? = some ci ∧
        o = (processGatherModel env inv q ci now id).outcome ∧
        (o.modelId = id ∨
          ∃ e : CacheEntry, cacheGet ci (keyOfId id q) = some e ∧
            now - e.ts < CACHE_TTL_MS ∧ o = spreadCached e.val) := by
  constructor
  · rw [gatherHandler, gatherGo_length, List.length_take]
  · intro i o id ho hid
    obtain ⟨ci, hci, hco⟩ :=
      gatherGo_get_cache env inv q now (modelIds.take 3) c i o id ho hid
    refine ⟨ci, hci, hco, ?_⟩
    rcases processGatherModel_outcome_src env inv q ci now id with h | ⟨e, he, hts, h⟩
    · left
      rw [hco]
      exact h
    · right
      exact ⟨e, he, hts, hco.trans h⟩

/-- Witness for `gather_response_shape` at a concrete valid request: the
first outcome of `{query:"hi", modelIds:["openai:gpt","c:d"]}` on the empty
cache is the fresh success for `"openai:gpt"`, read against the initial
cache. -/
theorem gather_response_shape_witness :
    ∃ ci : Cache,
      (gatherCaches "" (fun _ _ _ => .ok "hello" 5 none) "hi" 0
        (["openai:gpt", "c:d"].take 3) [])[0]? = some ci ∧
      ({ modelId := "openai:gpt", modelDisplay := some "openai:gpt",
         text := some "hello", metrics := some { timeMs := 5, length := 5 },
         raw := none } : GatherOutcome) =
        (processGatherModel "" (fun _ _ _ => .ok "hello" 5 none) "hi" ci 0
          "openai:gpt").outcome ∧
      (({ modelId := "openai:gpt", modelDisplay := some "openai:gpt",
          text := some "hello", metrics := some { timeMs := 5, length := 5 },
          raw := none } : GatherOutcome).modelId = "openai:gpt" ∨
        ∃ e : CacheEntry, cacheGet ci (keyOfId "openai:gpt" "hi") = some e ∧
          0 - e.ts < CACHE_TTL_MS ∧
          ({ modelId := "openai:gpt", modelDisplay := some "openai:gpt",
             text := some "hello", metrics := some { timeMs := 5, length := 5 },
             raw := none } : GatherOutcome) = spreadCached e.val) :=
  (gather_response_shape "" (fun _ _ _ => .ok "hello" 5 none) "hi" [] 0
      ["openai:gpt", "c:d"] (by decide) (by decide)).2 0
    { modelId := "openai:gpt", modelDisplay := some "openai:gpt",
      text := some "hello", metrics := some { timeMs := 5, length := 5 },
      raw := none }
    "openai:gpt" (by decide) (by decide)

/-! ## Claim C4 -/

/-- When the provider call reports a normalized success, the fresh branch of
the api gather task writes `{ts := now, val := out}` and returns the
success outcome (no `cached` flag). -/
theorem processGatherFresh_of_ok (inv : Invoker) (q : String) (c : Cache) (now : Int)
    (id provider : String) (engine : Option String) (key : String)
    (text : String) (tm : Int) (raw : Option String)
    (hok : (callProviderApi inv provider engine q).1 = .ok text tm raw) :
    processGatherFresh inv q c now id provider engine key =
      { outcome := { modelId := id,
                     modelDisplay := some (mkApiOut id provider engine text tm raw).modelDisplay,
                     text := some (mkApiOut id provider engine text tm raw).text,
                     metrics := some (mkApiOut id provider engine text tm raw).metrics,
                     raw := (mkApiOut id provider engine text tm raw).raw },
        cache := cacheSet c key { ts := now, val := mkApiOut id provider engine text tm raw },
        calls := (callProviderApi inv provider engine q).2 } := by
  unfold processGatherFresh
  split
  rename_i res cls heq
  have h1 : res = .ok text tm raw := by
    rw [← hok, heq]
  subst h1
  have h2 : cls = (callProviderApi inv provider engine q).2 := by
    rw [heq]
  subst h2
  rfl

/-- **C4**.  The response cache treats entries older than the TTL (1800 s =
`CACHE_TTL_MS` ms) as absent.  After a fresh successful invocation at
`now1` (any prior entry being absent or stale), the entry is stored with
`storedAt = now1`; a second request for the same `(provider, engine,
query)` within the TTL returns the identical stored `text` and `metrics`
and is flagged `cached:true`, leaving the cache untouched; once the TTL has
elapsed the next request is not flagged cached, and its fresh successful
invocation unconditionally overwrites the entry with `storedAt = now3`. -/
theorem cache_ttl_roundtrip (env : String) (inv : Invoker) (q id : String) (c : Cache)
    (now1 now2 now3 : Int) (text : String) (tm : Int) (raw : Option String)
    (hdep : isDeprecatedModelId env id = false)
    (hok : (callProviderApi inv (providerOf id) (engineOf id) q).1 = .ok text tm raw)
    (hmiss : ∀ e, cacheGet c (keyOfId id q) = some e → ¬ now1 - e.ts < CACHE_TTL_MS)
    (h12 : now2 - now1 < CACHE_TTL_MS)
    (h13 : CACHE_TTL_MS ≤ now3 - now1) :
    ∃ out : ModelResult,
      cacheGet (processGatherModel env inv q c now1 id).cache (keyOfId id q) =
        some { ts := now1, val := out } ∧
      (processGatherModel env inv q c now1 id).outcome.text = some out.text ∧
      (processGatherModel env inv q c now1 id).outcome.metrics = some out.metrics ∧
      (processGatherModel env inv q
          (processGatherModel env inv q c now1 id).cache now2 id).outcome =
        spreadCached out ∧
      (spreadCached out).cached = some true ∧
      (spreadCached out).text = some out.text ∧
      (spreadCached out).metrics = some out.metrics ∧
      (processGatherModel env inv q
          (processGatherModel env inv q c now1 id).cache now2 id).cache =
        (processGatherModel env inv q c now1 id).cache ∧
      (processGatherModel env inv q
          (processGatherModel env inv q c now1 id).cache now3 id).outcome.cached = none ∧
      cacheGet (processGatherModel env inv q
          (processGatherModel env inv q c now1 id).cache now3 id).cache (keyOfId id q) =
        some { ts := now3, val := out } := by
  refine ⟨mkApiOut id (providerOf id) (engineOf id) text tm raw, ?_⟩
  have hfresh : processGatherModel env inv q c now1 id =
      processGatherFresh inv q c now1 id (providerOf id) (engineOf id) (keyOfId id q) := by
    unfold processGatherModel
    rw [hdep]
    simp only [Bool.false_eq_true, if_false]
    split
    · rename_i e heq
      have hst : ¬ now1 - e.ts < CACHE_TTL_MS := hmiss e heq
      simp only [hst, if_false]
      rfl
    · rfl
  rw [hfresh, processGatherFresh_of_ok inv q c now1 id (providerOf id) (engineOf id)
    (keyOfId id q) text tm raw hok]
  set out := mkApiOut id (providerOf id) (engineOf id) text tm raw with hout
  have hget1 : cacheGet (cacheSet c (keyOfId id q) { ts := now1, val := out }) (keyOfId id q) =
      some { ts := now1, val := out } := cacheGet_set_self ..
  have hhit : processGatherModel env inv q
      (cacheSet c (keyOfId id q) { ts := now1, val := out }) now2 id =
      { outcome := spreadCached out,
        cache := cacheSet c (keyOfId id q) { ts := now1, val := out }, calls := [] } := by
    unfold processGatherModel
    rw [hdep]
    simp only [Bool.false_eq_true, if_false]
    split
    · rename_i e heq
      have he : e = { ts := now1, val := out } := by
        have h' : some ({ ts := now1, val := out } : CacheEntry) = some e :=
          hget1.symm.trans heq
        exact (Option.some.injEq _ _ ▸ h').symm
      subst he
      simp only [show (({ ts := now1, val := out } : CacheEntry)).ts = now1 from rfl, h12,
        if_true]
    · rename_i heq
      have h' : some ({ ts := now1, val := out } : CacheEntry) = none := hget1.symm.trans heq
      cases h'
  have hstale : processGatherModel env inv q
      (cacheSet c (keyOfId id q) { ts := now1, val := out }) now3 id =
      processGatherFresh inv q (cacheSet c (keyOfId id q) { ts := now1, val := out }) now3 id
        (providerOf id) (engineOf id) (keyOfId id q) := by
    unfold processGatherModel
    rw [hdep]
    simp only [Bool.false_eq_true, if_false]
    split
    · rename_i e heq
      have he : e = { ts := now1, val := out } := by
        have h' : some ({ ts := now1, val := out } : CacheEntry) = some e :=
          hget1.symm.trans heq
        exact (Option.some.injEq _ _ ▸ h').symm
      subst he
      have hno : ¬ now3 - ({ ts := now1, val := out } : CacheEntry).ts < CACHE_TTL_MS := by
        show ¬ now3 - now1 < CACHE_TTL_MS
        omega
      simp only [hno, if_false]
      rfl
    · rfl
  refine ⟨hget1, rfl, rfl, ?_, rfl, rfl, rfl, ?_, ?_, ?_⟩
  · rw [hhit]
  · rw [hhit]
  · rw [hstale, processGatherFresh_of_ok inv q _ now3 id (providerOf id) (engineOf id)
      (keyOfId id q) text tm raw hok]
  · rw [hstale, processGatherFresh_of_ok inv q _ now3 id (providerOf id) (engineOf id)
      (keyOfId id q) text tm raw hok]
    exact cacheGet_set_self ..

/-- Witness for `cache_ttl_roundtrip` at a concrete key and times `0`,
`10`, `CACHE_TTL_MS`. -/
theorem cache_ttl_roundtrip_witness :
    ∃ out : ModelResult,
      cacheGet (processGatherModel "" (fun _ _ _ => .ok "hello" 5 none) "hi" [] 0
          "openai:gpt").cache (keyOfId "openai:gpt" "hi") = some { ts := 0, val := out } ∧
      (processGatherModel "" (fun _ _ _ => .ok "hello" 5 none) "hi" [] 0
          "openai:gpt").outcome.text = some out.text ∧
      (processGatherModel "" (fun _ _ _ => .ok "hello" 5 none) "hi" [] 0
          "openai:gpt").outcome.metrics = some out.metrics ∧
      (processGatherModel "" (fun _ _ _ => .ok "hello" 5 none) "hi"
          (processGatherModel "" (fun _ _ _ => .ok "hello" 5 none) "hi" [] 0
            "openai:gpt").cache 10 "openai:gpt").outcome = spreadCached out ∧
      (spreadCached out).cached = some true ∧
      (spreadCached out).text = some out.text ∧
      (spreadCached out).metrics = some out.metrics ∧
      (processGatherModel "" (fun _ _ _ => .ok "hello" 5 none) "hi"
          (processGatherModel "" (fun _ _ _ => .ok "hello" 5 none) "hi" [] 0
            "openai:gpt").cache 10 "openai:gpt").cache =
        (processGatherModel "" (fun _ _ _ => .ok "hello" 5 none) "hi" [] 0
          "openai:gpt").cache ∧
      (processGatherModel "" (fun _ _ _ => .ok "hello" 5 none) "hi"
          (processGatherModel "" (fun _ _ _ => .ok "hello" 5 none) "hi" [] 0
            "openai:gpt").cache CACHE_TTL_MS "openai:gpt").outcome.cached = none ∧
      cacheGet (processGatherModel "" (fun _ _ _ => .ok "hello" 5 none) "hi"
          (processGatherModel "" (fun _ _ _ => .ok "hello" 5 none) "hi" [] 0
            "openai:gpt").cache CACHE_TTL_MS "openai:gpt").cache
        (keyOfId "openai:gpt" "hi") = some { ts := CACHE_TTL_MS, val := out } :=
  cache_ttl_roundtrip "" (fun _ _ _ => .ok "hello" 5 none) "hi" "openai:gpt" [] 0 10
    CACHE_TTL_MS "hello" 5 none (by decide) (by decide)
    (by intro e h; simp [cacheGet, List.find?] at h) (by decide) (by decide)

/-! ## Claim C3 -/

/-- **C3**.  In stream mode (`part_000` handler), whenever a model's text
is delivered — from the cache or from a fresh successful invocation — the
per-model event sequence is exactly `model-start`, then the `model-chunk`
events `chunkEvents id text`, then `model-end`; and the chunking satisfies
the round-trip laws: the concatenation of the chunks is the full text,
every chunk except possibly the last has exactly 200 units, every chunk
has between 1 and 200 units, and the empty text produces zero chunk
events. -/
theorem stream_chunk_roundtrip (env : String) (inv : Invoker) (q : String) (c : Cache)
    (now : Int) (id : String) (hdep : isDeprecatedModelId env id = false) :
    (∀ e : CacheEntry, cacheGet c (keyOfId id q) = some e → now - e.ts < CACHE_TTL_MS →
      taskEvents (processStreamModel env inv q c now id) =
        .modelStart id e.val.modelDisplay true ::
          (chunkEvents id (jsOrStr e.val.text "") ++ [.modelEnd id e.val.metrics])) ∧
    (∀ (text : String) (tm : Int) (raw : Option String),
      (callProviderApi inv (providerOf id) (engineOf id) q).1 = .ok text tm raw →
      (∀ e : CacheEntry, cacheGet c (keyOfId id q) = some e → ¬ now - e.ts < CACHE_TTL_MS) →
      taskEvents (processStreamModel env inv q c now id) =
        .modelStart id (providerOf id ++ ":" ++ engineStr (engineOf id)) false ::
          (chunkEvents id (mkApiOut id (providerOf id) (engineOf id) text tm raw).text ++
            [.modelEnd id (mkApiOut id (providerOf id) (engineOf id) text tm raw).metrics])) ∧
    (∀ s : String, String.join (chunkTexts s) = s) ∧
    (∀ s t : String, t ∈ (chunkTexts s).dropLast → t.length = 200) ∧
    (∀ s t : String, t ∈ chunkTexts s → 1 ≤ t.length ∧ t.length ≤ 200) ∧
    (∀ s : String, s = "" → chunkEvents id s = []) := by
  refine ⟨?_, ?_, chunkTexts_join, chunkTexts_dropLast_length, chunkTexts_mem_length, ?_⟩
  · intro e hget hfr
    unfold processStreamModel
    rw [hdep]
    simp only [Bool.false_eq_true, if_false]
    split
    · rename_i e' heq
      have he : e' = e := by
        have h' : some e = some e' := hget.symm.trans heq
        exact (Option.some.injEq _ _ ▸ h').symm
      subst he
      simp only [hfr, if_true]
      simp [taskEvents]
    · rename_i heq
      have h' : some e = none := hget.symm.trans heq
      cases h'
  · intro text tm raw hok hstale
    have hfresh : processStreamModel env inv q c now id =
        processStreamFresh inv q c now id (providerOf id) (engineOf id) (keyOfId id q) := by
      unfold processStreamModel
      rw [hdep]
      simp only [Bool.false_eq_true, if_false]
      split
      · rename_i e heq
        have hst : ¬ now - e.ts < CACHE_TTL_MS := hstale e heq
        simp only [hst, if_false]
        rfl
      · rfl
    rw [hfresh]
    unfold processStreamFresh
    split
    rename_i res cls heq
    have h1 : res = .ok text tm raw := by
      rw [← hok, heq]
    subst h1
    simp [taskEvents]
  · intro s hs
    subst hs
    rw [chunkEvents, (chunkTexts_nil_iff "").mpr rfl]
    rfl

/-- Witness for `stream_chunk_roundtrip`: a cache hit whose stored text is
`"hello"` streams one `model-chunk` with exactly the stored text between
`model-start` and `model-end`. -/
theorem stream_chunk_roundtrip_witness :
    taskEvents (processStreamModel "" (fun _ _ _ => .ok "" 0 none) "hi"
        [(keyOfId "a:b" "hi",
          { ts := 0,
            val := { modelId := "a:b", modelDisplay := "a:b", text := "hello",
                     metrics := { timeMs := 5, length := 5 }, raw := none } })] 1 "a:b") =
      .modelStart "a:b" "a:b" true ::
        (chunkEvents "a:b" (jsOrStr "hello" "") ++
          [.modelEnd "a:b" { timeMs := 5, length := 5 }]) :=
  (stream_chunk_roundtrip "" (fun _ _ _ => .ok "" 0 none) "hi" _ 1 "a:b" (by decide)).1
    { ts := 0,
      val := { modelId := "a:b", modelDisplay := "a:b", text := "hello",
               metrics := { timeMs := 5, length := 5 }, raw := none } }
    (by decide) (by decide)

/-! ## Claim C5 -/

/-- **C5** counterexample.  In gather mode a deprecated identifier is *not*
marked with a flag different from errors: its outcome carries the very same
`error: true` flag that genuine Error outcomes carry (here, an unsupported
provider), and no skip-specific field exists — the outcome is exactly
`{modelId, error: true, message: "model deprecated or marked deprecated"}`,
distinguishable from an error only by the message text. -/
theorem gather_skip_same_flag_cex :
    (processGatherModel "" (fun _ _ _ => .ok "x" 1 none) "hi" [] 0
      "openai:gpt-deprecated").outcome.error = some true ∧
    (processGatherModel "" (fun _ _ _ => .ok "x" 1 none) "hi" [] 0
      "bogus:engine").outcome.error = some true ∧
    (processGatherModel "" (fun _ _ _ => .ok "x" 1 none) "hi" [] 0
      "openai:gpt-deprecated").outcome =
      { modelId := "openai:gpt-deprecated", error := some true,
        message := some "model deprecated or marked deprecated" } := by
  decide

/-- **C5** (amended).  A deprecated identifier produces a skip outcome that
is distinguished from errors by a different event name (`model-skipped`
versus `model-error`) in stream mode; in gather mode, however, it carries
the same `error:true` flag as Error outcomes and is distinguished only by
its fixed message `"model deprecated or marked deprecated"` (and by not
carrying `modelDisplay`/`status`/`body`). -/
theorem deprecated_skip_marking (env : String) (inv : Invoker) (q : String) (c : Cache)
    (now : Int) (id : String) (h : isDeprecatedModelId env id = true) :
    (processGatherModel env inv q c now id).outcome =
      { modelId := id, error := some true,
        message := some "model deprecated or marked deprecated" } ∧
    taskEvents (processStreamModel env inv q c now id) = [.modelSkipped id "deprecated"] ∧
    taskEvents (processServerStreamModel env inv q c now id) =
      [.modelSkipped id "deprecated"] ∧
    ∀ (mid msg : String) (st : Option Int) (bd : Option String),
      (StreamEvent.modelSkipped id "deprecated").name ≠
        (StreamEvent.modelError mid msg st bd).name := by
  refine ⟨?_, ?_, ?_, ?_⟩
  · unfold processGatherModel
    rw [h]
    rfl
  · unfold processStreamModel
    rw [h]
    rfl
  · unfold processServerStreamModel
    rw [h]
    rfl
  · intro mid msg st bd
    simp [StreamEvent.name]

/-- Witness for `deprecated_skip_marking` at the spec's concrete scenario
identifier. -/
theorem deprecated_skip_marking_witness :
    (processGatherModel "" (fun _ _ _ => .ok "x" 1 none) "hi" [] 0
      "openai:gpt-3.5-turbo-deprecated").outcome =
      { modelId := "openai:gpt-3.5-turbo-deprecated", error := some true,
        message := some "model deprecated or marked deprecated" } :=
  (deprecated_skip_marking "" (fun _ _ _ => .ok "x" 1 none) "hi" [] 0
    "openai:gpt-3.5-turbo-deprecated" (by decide)).1

/-! ## Claim C6 -/

/-- **C6** counterexample.  The express routes' `callProvider`
(`src/server/src/routes/compare.js:21-25`, `stream.js:22-26`) performs no
format check: for the identifier `"openai:"` (empty engine) the invoker is
called with the empty engine, and with a succeeding invoker the outcome is
a Success — not the claimed per-model Error "invalid model id format". -/
theorem server_no_engine_check_cex :
    (processServerGatherModel "" (fun _ _ _ => .ok "hello" 5 none) "hi" [] 0
      "openai:").outcome.error = none ∧
    (processServerGatherModel "" (fun _ _ _ => .ok "hello" 5 none) "hi" [] 0
      "openai:").outcome.text = some "hello" ∧
    (processServerGatherModel "" (fun _ _ _ => .ok "hello" 5 none) "hi" [] 0
      "openai:").calls = [("openai", some "", "hi")] := by
  decide

/-- **C6** (amended).  In the api handler (`src/api/compare.js`, likewise
`part_000`), a model id whose engine segment is empty or absent — after
splitting on `':'` and keeping the first two segments — produces, on the
standard path (not deprecated, no live cache entry for the id's key), the
per-model Error `"Invalid model ID format. Expected format:
provider:engine"` attributed to that `modelId`, with no invoker call and an
unchanged cache; the response still contains one outcome per selected
sibling.  The express routes instead perform no format check and forward
the empty/absent engine to the provider dispatch. -/
theorem api_invalid_engine_error (env : String) (inv : Invoker) (q : String) (c : Cache)
    (now : Int) (id : String)
    (hdep : isDeprecatedModelId env id = false)
    (heng : engineOf id = none ∨ engineOf id = some "")
    (hmiss : ∀ e : CacheEntry, cacheGet c (keyOfId id q) = some e →
      ¬ now - e.ts < CACHE_TTL_MS) :
    processGatherModel env inv q c now id =
      { outcome := { modelId := id, modelDisplay := some id, error := some true,
                     message := some "Invalid model ID format. Expected format: provider:engine" },
        cache := c, calls := [] } ∧
    ∀ (ids : List String) (c2 : Cache),
      (gatherHandler env inv q c2 now ids).1.length = min 3 ids.length := by
  constructor
  · have hfresh : processGatherModel env inv q c now id =
        processGatherFresh inv q c now id (providerOf id) (engineOf id) (keyOfId id q) := by
      unfold processGatherModel
      rw [hdep]
      simp only [Bool.false_eq_true, if_false]
      split
      · rename_i e heq
        have hst : ¬ now - e.ts < CACHE_TTL_MS := hmiss e heq
        simp only [hst, if_false]
        rfl
      · rfl
    rw [hfresh]
    unfold processGatherFresh
    have hcall : callProviderApi inv (providerOf id) (engineOf id) q =
        (.thrown "Invalid model ID format. Expected format: provider:engine", []) := by
      unfold callProviderApi
      have : engineOf id = none ∨ engineOf id = some "" := heng
      rcases this with h | h <;> simp [h]
    rw [hcall]
    rfl
  · intro ids c2
    rw [gatherHandler, gatherGo_length, List.length_take]

/-- Witness for `api_invalid_engine_error` at the identifier `"openai:"`. -/
theorem api_invalid_engine_error_witness :
    processGatherModel "" (fun _ _ _ => .ok "hello" 5 none) "hi" [] 0 "openai:" =
      { outcome := { modelId := "openai:", modelDisplay := some "openai:",
                     error := some true,
                     message := some "Invalid model ID format. Expected format: provider:engine" },
        cache := [], calls := [] } :=
  (api_invalid_engine_error "" (fun _ _ _ => .ok "hello" 5 none) "hi" [] 0 "openai:"
    (by decide) (by decide) (by intro e h; simp [cacheGet, List.find?] at h)).1

/-! ## Claim C7 -/

/-- **C7**.  A deprecated identifier never reaches the Model Invoker: in
all four pipeline variants (api gather, express gather, `part_000` stream,
express stream) the task for a deprecated id performs zero invoker
calls. -/
theorem deprecated_never_invoked (env : String) (inv : Invoker) (q : String) (c : Cache)
    (now : Int) (id : String) (h : isDeprecatedModelId env id = true) :
    (processGatherModel env inv q c now id).calls = [] ∧
    (processServerGatherModel env inv q c now id).calls = [] ∧
    (processStreamModel env inv q c now id).calls = [] ∧
    (processServerStreamModel env inv q c now id).calls = [] := by
  refine ⟨?_, ?_, ?_, ?_⟩ <;>
    first
    | (unfold processGatherModel; rw [h]; rfl)
    | (unfold processServerGatherModel; rw [h]; rfl)
    | (unfold processStreamModel; rw [h]; rfl)
    | (unfold processServerStreamModel; rw [h]; rfl)

/-- Witness for `deprecated_never_invoked` at the spec's concrete scenario
identifier. -/
theorem deprecated_never_invoked_witness :
    (processGatherModel "" (fun _ _ _ => .ok "x" 1 none) "hi" [] 0
      "openai:gpt-3.5-turbo-deprecated").calls = [] :=
  (deprecated_never_invoked "" (fun _ _ _ => .ok "x" 1 none) "hi" [] 0
    "openai:gpt-3.5-turbo-deprecated" (by decide)).1

/-! ## Claim C10 -/

/-- **C10**.  The cache map is mutated only by the success branch of a
fresh invocation: in the api gather task and the express stream task,
either the task leaves the cache exactly as it found it (deprecated skip,
cache hit, provider error, thrown invocation), or the provider call
reported a normalized success and the new cache is precisely the old one
with the task's key overwritten by `{ts := now, val := out}` — in which
case the outcome is a non-cached success.  In particular a cache hit
returns the entry without touching its `storedAt`, so reading never
extends an entry's lifetime, and keys other than the task's own are never
affected. -/
theorem cache_frame_effect (env : String) (inv : Invoker) (q : String) (c : Cache)
    (now : Int) (id : String) :
    ((processGatherModel env inv q c now id).cache = c ∨
      ∃ (text : String) (tm : Int) (raw : Option String),
        (callProviderApi inv (providerOf id) (engineOf id) q).1 = .ok text tm raw ∧
        (processGatherModel env inv q c now id).cache =
          cacheSet c (keyOfId id q)
            { ts := now, val := mkApiOut id (providerOf id) (engineOf id) text tm raw } ∧
        (processGatherModel env inv q c now id).outcome.error = none ∧
        (processGatherModel env inv q c now id).outcome.cached = none) ∧
    ((processServerStreamModel env inv q c now id).cache = c ∨
      ∃ (text : String) (tm : Int) (raw : Option String),
        (callProviderServer inv (providerOf id) (engineOf id) q).1 = .ok text tm raw ∧
        (processServerStreamModel env inv q c now id).cache =
          cacheSet c (keyOfId id q)
            { ts := now, val := mkApiOut id (providerOf id) (engineOf id) text tm raw }) ∧
    (∀ k : String, k ≠ keyOfId id q →
      cacheGet (processGatherModel env inv q c now id).cache k = cacheGet c k) ∧
    (∀ k : String, k ≠ keyOfId id q →
      cacheGet (processServerStreamModel env inv q c now id).cache k = cacheGet c k) := by
  have hg : (processGatherModel env inv q c now id).cache = c ∨
      ∃ (text : String) (tm : Int) (raw : Option String),
        (callProviderApi inv (providerOf id) (engineOf id) q).1 = .ok text tm raw ∧
        (processGatherModel env inv q c now id).cache =
          cacheSet c (keyOfId id q)
            { ts := now, val := mkApiOut id (providerOf id) (engineOf id) text tm raw } ∧
        (processGatherModel env inv q c now id).outcome.error = none ∧
        (processGatherModel env inv q c now id).outcome.cached = none := by
    unfold processGatherModel
    split
    · left
      rfl
    · dsimp only
      split
      · split
        · left
          rfl
        · unfold processGatherFresh
          split
          rename_i res cls heq
          cases res with
          | thrown m => left; rfl
          | err m st bd => left; rfl
          | ok text tm raw =>
            right
            exact ⟨text, tm, raw, congrArg Prod.fst heq, rfl, rfl, rfl⟩
      · unfold processGatherFresh
        split
        rename_i res cls heq
        cases res with
        | thrown m => left; rfl
        | err m st bd => left; rfl
        | ok text tm raw =>
          right
          exact ⟨text, tm, raw, congrArg Prod.fst heq, rfl, rfl, rfl⟩
  have hs : (processServerStreamModel env inv q c now id).cache = c ∨
      ∃ (text : String) (tm : Int) (raw : Option String),
        (callProviderServer inv (providerOf id) (engineOf id) q).1 = .ok text tm raw ∧
        (processServerStreamModel env inv q c now id).cache =
          cacheSet c (keyOfId id q)
            { ts := now, val := mkApiOut id (providerOf id) (engineOf id) text tm raw } := by
    unfold processServerStreamModel
    split
    · left
      rfl
    · dsimp only
      split
      · split
        · left
          rfl
        · unfold processServerStreamFresh
          split
          rename_i res cls heq
          cases res with
          | thrown m => left; rfl
          | err m st bd => left; rfl
          | ok text tm raw =>
            right
            exact ⟨text, tm, raw, congrArg Prod.fst heq, rfl⟩
      · unfold processServerStreamFresh
        split
        rename_i res cls heq
        cases res with
        | thrown m => left; rfl
        | err m st bd => left; rfl
        | ok text tm raw =>
          right
          exact ⟨text, tm, raw, congrArg Prod.fst heq, rfl⟩
  refine ⟨hg, hs, ?_, ?_⟩
  · intro k hk
    rcases hg with hc | ⟨text, tm, raw, _, hc, _, _⟩
    · rw [hc]
    · rw [hc]
      exact cacheGet_set_ne c (keyOfId id q) k _ hk
  · intro k hk
    rcases hs with hc | ⟨text, tm, raw, _, hc⟩
    · rw [hc]
    · rw [hc]
      exact cacheGet_set_ne c (keyOfId id q) k _ hk

/-! ## Claim C9 -/

/-- Invariant of the limiter at ceiling 3: at most 3 tasks run, and a
non-empty queue means the ceiling is saturated (so no slot is ever idle
while work is queued). -/
def LimInv (s : LimiterState) : Prop :=
  s.running ≤ 3 ∧ (s.queue ≠ [] → s.running = 3)

theorem limStep_inv_track (s : LimiterState) (e : LimEvent) (hs : LimInv s)
    (hv : match e with | .finish _ => 0 < s.running | .submit _ => True) :
    LimInv (limStep 3 s e) ∧
    (limStep 3 s e).started ++ (limStep 3 s e).queue =
      s.started ++ s.queue ++ (match e with | .submit id => [id] | .finish _ => []) := by
  obtain ⟨h3, hq⟩ := hs
  cases e with
  | submit id =>
    by_cases hr : s.running ≥ 3
    · have : limStep 3 s (.submit id) =
          { queue := s.queue ++ [id], running := s.running, started := s.started } := by
        unfold limStep limNext
        simp [hr]
      rw [this]
      refine ⟨⟨h3, fun _ => ?_⟩, by simp⟩
      dsimp only
      omega
    · have hqe : s.queue = [] := by
        by_contra hne
        exact hr (le_of_eq (hq hne).symm)
      have : limStep 3 s (.submit id) =
          { queue := [], running := s.running + 1, started := s.started ++ [id] } := by
        unfold limStep limNext
        simp [hr, hqe]
      rw [this]
      refine ⟨⟨?_, by simp⟩, by simp [hqe]⟩
      dsimp only
      omega
  | finish ok =>
    have hr : 0 < s.running := hv
    cases hqc : s.queue with
    | nil =>
      have : limStep 3 s (.finish ok) =
          { queue := s.queue, running := s.running - 1, started := s.started } := by
        unfold limStep limNext
        simp [hqc, show ¬ s.running - 1 ≥ 3 by omega]
      rw [this]
      refine ⟨⟨?_, by simp [hqc]⟩, by simp [hqc]⟩
      dsimp only
      omega
    | cons t rest =>
      have h33 : s.running = 3 := hq (by simp [hqc])
      have : limStep 3 s (.finish ok) =
          { queue := rest, running := s.running - 1 + 1, started := s.started ++ [t] } := by
        unfold limStep limNext
        simp [hqc, show ¬ s.running - 1 ≥ 3 by omega]
      rw [this]
      refine ⟨⟨?_, fun _ => ?_⟩, by simp [hqc]⟩
      · dsimp only
        omega
      · dsimp only
        omega

theorem limRun_inv_track (tr : List LimEvent) (s : LimiterState) (hs : LimInv s)
    (hv : limValid 3 s tr = true) :
    LimInv (limRun 3 s tr) ∧
    (limRun 3 s tr).started ++ (limRun 3 s tr).queue =
      s.started ++ s.queue ++ limSubmits tr := by
  induction tr generalizing s with
  | nil => exact ⟨hs, by simp [limRun, limSubmits]⟩
  | cons e rest ih =>
    cases e with
    | submit id =>
      have hv' : limValid 3 (limStep 3 s (.submit id)) rest = true := by
        simpa [limValid] using hv
      obtain ⟨hinv, htrack⟩ := limStep_inv_track s (.submit id) hs trivial
      obtain ⟨hinv', htrack'⟩ := ih (limStep 3 s (.submit id)) hinv hv'
      refine ⟨hinv', ?_⟩
      simp only [limRun]
      rw [htrack', htrack]
      simp [limSubmits, List.append_assoc]
    | finish ok =>
      simp only [limValid, Bool.and_eq_true, decide_eq_true_eq] at hv
      obtain ⟨hinv, htrack⟩ := limStep_inv_track s (.finish ok) hs hv.1
      obtain ⟨hinv', htrack'⟩ := ih (limStep 3 s (.finish ok)) hinv hv.2
      refine ⟨hinv', ?_⟩
      simp only [limRun]
      rw [htrack', htrack]
      simp [limSubmits]

/-- **C9**.  The `createConcurrencyLimiter(3)` state machine never has more
than 3 tasks running at once; tasks are started in FIFO submission order
(the started history followed by the still-queued tasks is exactly the
submission sequence); a task's completion behaves identically whether its
promise resolved or rejected (the `finally` ignores the outcome); and a
completion while the queue is non-empty always starts exactly the queued
head. -/
theorem limiter_ceiling_fifo (tr : List LimEvent) (hv : limValid 3 limInit tr = true) :
    (limRun 3 limInit tr).running ≤ 3 ∧
    (limRun 3 limInit tr).started ++ (limRun 3 limInit tr).queue = limSubmits tr ∧
    (∀ ok₁ ok₂ : Bool,
      limStep 3 (limRun 3 limInit tr) (.finish ok₁) =
        limStep 3 (limRun 3 limInit tr) (.finish ok₂)) ∧
    (∀ (ok : Bool) (t : Nat) (rest : List Nat),
      (limRun 3 limInit tr).queue = t :: rest →
      (limStep 3 (limRun 3 limInit tr) (.finish ok)).started =
        (limRun 3 limInit tr).started ++ [t] ∧
      (limStep 3 (limRun 3 limInit tr) (.finish ok)).queue = rest) := by
  obtain ⟨⟨h3, hq⟩, htrack⟩ :=
    limRun_inv_track tr limInit ⟨by simp [limInit], by simp [limInit]⟩ hv
  refine ⟨h3, by simpa [limInit] using htrack, fun ok₁ ok₂ => rfl, ?_⟩
  intro ok t rest hqc
  have h33 : (limRun 3 limInit tr).running = 3 := hq (by simp [hqc])
  have : limStep 3 (limRun 3 limInit tr) (.finish ok) =
      { queue := rest, running := (limRun 3 limInit tr).running - 1 + 1,
        started := (limRun 3 limInit tr).started ++ [t] } := by
    unfold limStep limNext
    simp [hqc, show ¬ (limRun 3 limInit tr).running - 1 ≥ 3 by omega]
  rw [this]
  exact ⟨rfl, rfl⟩

/-- Witness for `limiter_ceiling_fifo`: four submissions and two
completions, the first of which rejects. -/
theorem limiter_ceiling_fifo_witness :
    (limRun 3 limInit
      [.submit 0, .submit 1, .submit 2, .submit 3, .finish false, .finish true]).running ≤ 3 ∧
    (limRun 3 limInit
        [.submit 0, .submit 1, .submit 2, .submit 3, .finish false, .finish true]).started ++
      (limRun 3 limInit
        [.submit 0, .submit 1, .submit 2, .submit 3, .finish false, .finish true]).queue =
      limSubmits [.submit 0, .submit 1, .submit 2, .submit 3, .finish false, .finish true] :=
  ⟨(limiter_ceiling_fifo
      [.submit 0, .submit 1, .submit 2, .submit 3, .finish false, .finish true]
      (by decide)).1,
   (limiter_ceiling_fifo
      [.submit 0, .submit 1, .submit 2, .submit 3, .finish false, .finish true]
      (by decide)).2.1⟩

/-! ## Claim C8 -/

/-- An optional `[\s-]?` separator: nothing, or exactly one
whitespace-or-hyphen character. -/
def IsOptSep (cs : List Char) : Prop :=
  cs = [] ∨ ∃ ch : Char, isSepChar ch = true ∧ cs = [ch]

/-- The spec's wording of the Deprecation Filter's token condition, for
comparison with the source's `deprecatedRegexTest`: the (ASCII-lowercased)
identifier contains one of the tokens "deprecated", "deprecat", "retired",
"obsolete", "eol", or "end of life" with an optional whitespace/hyphen
separator at each juncture. -/
def SpecTokenHit (l : List Char) : Prop :=
  "deprecated".data <:+: l ∨ "deprecat".data <:+: l ∨
  (∃ s1 s2 : List Char, IsOptSep s1 ∧ IsOptSep s2 ∧
    ("end".data ++ s1 ++ "of".data ++ s2 ++ "life".data) <:+: l) ∨
  "eol".data <:+: l ∨ "retired".data <:+: l ∨ "obsolete".data <:+: l

/-- The spec's wording of the Deprecation Filter contract, for comparison
with the source's `isDeprecatedModelId`: true exactly when the id is
literally present in the configured deny-set, or case-insensitively
contains one of the deprecation tokens. -/
def SpecDeprecated (env modelId : String) : Prop :=
  modelId ∈ denySet env ∨ SpecTokenHit (modelId.data.map asciiLower)

theorem prefixMatch_iff (p c : List Char) : prefixMatch p c = true ↔ p <+: c := by
  induction p generalizing c with
  | nil => simp [prefixMatch]
  | cons a p ih =>
    cases c with
    | nil => simp [prefixMatch]
    | cons b c =>
      simp [prefixMatch, Bool.and_eq_true, decide_eq_true_eq, ih, List.cons_prefix_cons]

theorem mem_afterOptSep (t r : List Char) :
    r ∈ afterOptSep t ↔ ∃ s : List Char, IsOptSep s ∧ t = s ++ r := by
  unfold afterOptSep
  cases t with
  | nil =>
    simp only [List.mem_singleton]
    constructor
    · rintro rfl
      exact ⟨[], Or.inl rfl, rfl⟩
    · rintro ⟨s, hs, ht⟩
      rcases hs with rfl | ⟨ch, _, rfl⟩
      · simpa using ht.symm
      · cases ht
  | cons c rest =>
    by_cases hsep : isSepChar c = true
    · simp only [hsep, if_true, List.mem_cons, List.mem_singleton, List.not_mem_nil,
        or_false]
      constructor
      · rintro (rfl | rfl)
        · exact ⟨[], Or.inl rfl, rfl⟩
        · exact ⟨[c], Or.inr ⟨c, hsep, rfl⟩, rfl⟩
      · rintro ⟨s, hs, ht⟩
        rcases hs with rfl | ⟨ch, hch, rfl⟩
        · left
          exact ht.symm
        · right
          cases ht
          rfl
    · have hsep' : isSepChar c = false := Bool.eq_false_iff.mpr hsep
      simp only [hsep', Bool.false_eq_true, if_false, List.mem_singleton]
      constructor
      · rintro rfl
        exact ⟨[], Or.inl rfl, rfl⟩
      · rintro ⟨s, hs, ht⟩
        rcases hs with rfl | ⟨ch, hch, rfl⟩
        · simpa using ht.symm
        · cases ht
          exact absurd hch hsep

theorem matchEol_iff (t : List Char) :
    matchEol t = true ↔
      ∃ s1 s2 : List Char, IsOptSep s1 ∧ IsOptSep s2 ∧
        ("end".data ++ s1 ++ "of".data ++ s2 ++ "life".data) <+: t := by
  unfold matchEol
  simp only [Bool.and_eq_true, List.any_eq_true, prefixMatch_iff, mem_afterOptSep]
  constructor
  · rintro ⟨⟨u, hu⟩, r1, ⟨s1, hs1, hsplit1⟩, ⟨v, hv⟩, r2, ⟨s2, hs2, hsplit2⟩, ⟨w, hw⟩⟩
    have hdrop1 : t.drop 3 = u := by
      rw [← hu]
      exact List.drop_left "end".data u
    have hdrop2 : r1.drop 2 = v := by
      rw [← hv]
      exact List.drop_left "of".data v
    refine ⟨s1, s2, hs1, hs2, w, ?_⟩
    rw [← hu, ← hdrop1, hsplit1, ← hv, ← hdrop2, hsplit2, ← hw]
    simp [List.append_assoc]
  · rintro ⟨s1, s2, hs1, hs2, w, hw⟩
    have ht : t = "end".data ++ (s1 ++ ("of".data ++ (s2 ++ ("life".data ++ w)))) := by
      rw [← hw]
      simp [List.append_assoc]
    refine ⟨⟨s1 ++ ("of".data ++ (s2 ++ ("life".data ++ w))), ht.symm⟩,
      "of".data ++ (s2 ++ ("life".data ++ w)), ⟨s1, hs1, ?_⟩,
      ⟨s2 ++ ("life".data ++ w), rfl⟩,
      "life".data ++ w, ⟨s2, hs2, ?_⟩, w, rfl⟩
    · rw [ht]
      exact List.drop_left "end".data _
    · exact List.drop_left "of".data _

theorem matchAlt_iff (t : List Char) :
    matchAlt t = true ↔
      ("deprecated".data <+: t ∨ "deprecat".data <+: t ∨
       (∃ s1 s2 : List Char, IsOptSep s1 ∧ IsOptSep s2 ∧
         ("end".data ++ s1 ++ "of".data ++ s2 ++ "life".data) <+: t) ∨
       "eol".data <+: t ∨ "retired".data <+: t ∨ "obsolete".data <+: t) := by
  unfold matchAlt
  simp only [Bool.or_eq_true, prefixMatch_iff, matchEol_iff, or_assoc]

theorem deprecatedRegexTest_iff (m : String) :
    deprecatedRegexTest m = true ↔ SpecTokenHit (m.data.map asciiLower) := by
  unfold deprecatedRegexTest SpecTokenHit
  rw [List.any_eq_true]
  constructor
  · rintro ⟨t, ht, hm⟩
    have hsuf : t <:+ m.data.map asciiLower := (List.mem_tails _ _).mp ht
    rcases (matchAlt_iff t).mp hm with h | h | ⟨s1, s2, hs1, hs2, h⟩ | h | h | h
    · exact Or.inl (List.infix_iff_prefix_suffix.mpr ⟨t, h, hsuf⟩)
    · exact Or.inr (Or.inl (List.infix_iff_prefix_suffix.mpr ⟨t, h, hsuf⟩))
    · exact Or.inr (Or.inr (Or.inl ⟨s1, s2, hs1, hs2,
        List.infix_iff_prefix_suffix.mpr ⟨t, h, hsuf⟩⟩))
    · exact Or.inr (Or.inr (Or.inr (Or.inl
        (List.infix_iff_prefix_suffix.mpr ⟨t, h, hsuf⟩))))
    · exact Or.inr (Or.inr (Or.inr (Or.inr (Or.inl
        (List.infix_iff_prefix_suffix.mpr ⟨t, h, hsuf⟩)))))
    · exact Or.inr (Or.inr (Or.inr (Or.inr (Or.inr
        (List.infix_iff_prefix_suffix.mpr ⟨t, h, hsuf⟩)))))
  · intro h
    have pack : ∃ t, t <:+ m.data.map asciiLower ∧ matchAlt t = true := by
      rcases h with h | h | ⟨s1, s2, hs1, hs2, h⟩ | h | h | h
      · obtain ⟨t, hp, hs⟩ := List.infix_iff_prefix_suffix.mp h
        exact ⟨t, hs, (matchAlt_iff t).mpr (Or.inl hp)⟩
      · obtain ⟨t, hp, hs⟩ := List.infix_iff_prefix_suffix.mp h
        exact ⟨t, hs, (matchAlt_iff t).mpr (Or.inr (Or.inl hp))⟩
      · obtain ⟨t, hp, hs⟩ := List.infix_iff_prefix_suffix.mp h
        exact ⟨t, hs, (matchAlt_iff t).mpr
          (Or.inr (Or.inr (Or.inl ⟨s1, s2, hs1, hs2, hp⟩)))⟩
      · obtain ⟨t, hp, hs⟩ := List.infix_iff_prefix_suffix.mp h
        exact ⟨t, hs, (matchAlt_iff t).mpr (Or.inr (Or.inr (Or.inr (Or.inl hp))))⟩
      · obtain ⟨t, hp, hs⟩ := List.infix_iff_prefix_suffix.mp h
        exact ⟨t, hs, (matchAlt_iff t).mpr
          (Or.inr (Or.inr (Or.inr (Or.inr (Or.inl hp)))))⟩
      · obtain ⟨t, hp, hs⟩ := List.infix_iff_prefix_suffix.mp h
        exact ⟨t, hs, (matchAlt_iff t).mpr
          (Or.inr (Or.inr (Or.inr (Or.inr (Or.inr hp)))))⟩
    obtain ⟨t, hs, hm⟩ := pack
    exact ⟨t, (List.mem_tails _ _).mpr hs, hm⟩

/-- **C8**.  `isDeprecatedModelId` returns `true` exactly when the id is
literally present (exact match) in the comma-separated deny-set from the
configuration, or the ASCII-lowercased id contains one of the tokens
"deprecated"/"deprecat", "end-of-life" (with an optional whitespace or
hyphen at each juncture), "eol", "retired", "obsolete"; otherwise `false`.
It is a pure function of the id and the configured deny-set. -/
theorem deprecation_filter_spec (env modelId : String) :
    isDeprecatedModelId env modelId = true ↔ SpecDeprecated env modelId := by
  have h1 : isDeprecatedModelId env modelId = true ↔
      ((denySet env).contains modelId = true ∨ deprecatedRegexTest modelId = true) := by
    unfold isDeprecatedModelId
    by_cases hc : (denySet env).contains modelId <;>
      by_cases hr : deprecatedRegexTest modelId <;> simp [hc, hr]
  rw [h1, SpecDeprecated, ← deprecatedRegexTest_iff]
  constructor
  · rintro (hc | hr)
    · exact Or.inl (List.elem_iff.mp hc)
    · exact Or.inr hr
  · rintro (hc | hr)
    · exact Or.inl (List.elem_iff.mpr hc)
    · exact Or.inr hr

end LlmCompare
